import Mathlib

/-!
Shallow embedding of the instant-agent repository (src/agent): the tools
module (execute_shell), the execution memory store (execution_engine.py),
the Claude-style engine loop (claude_engine.py) and the legacy plan
executor (agent.py, process_request).  External effects (subprocess,
clock, reasoning service, file system) are modelled as explicit oracle
parameters and a file-state component threaded through the store.
-/

/-! String utilities mirroring Python primitives used by the code. -/

/-- Boolean test that the second list is a prefix of the first
(Python startswith on char lists). -/
def strStartsWith : List Char → List Char → Bool
  | _, [] => true
  | [], _ :: _ => false
  | c :: cs, d :: ds => c == d && strStartsWith cs ds

/-- Boolean substring containment on char lists (Python in operator). -/
def listContainsSub : List Char → List Char → Bool
  | [], needle => needle.isEmpty
  | c :: cs, needle => strStartsWith (c :: cs) needle || listContainsSub cs needle

/-- Substring containment on strings: sub occurs somewhere in hay. -/
def strContains (hay sub : String) : Bool := listContainsSub hay.data sub.data

/-- ASCII lowercasing of one character (Python str.lower on ASCII). -/
def charLower (c : Char) : Char :=
  if 65 ≤ c.toNat && c.toNat ≤ 90 then Char.ofNat (c.toNat + 32) else c

/-- Lowercasing of a string, modelling Python str.lower on ASCII. -/
def lowerStr (s : String) : String := String.mk (s.data.map charLower)

/-- Splitting a character list at every whitespace character, keeping
empty pieces (the semantics of splitting on each separator). -/
def splitWsAux : List Char → List Char → List String
  | [], cur => [String.mk cur.reverse]
  | c :: cs, cur =>
    if c.isWhitespace then String.mk cur.reverse :: splitWsAux cs []
    else splitWsAux cs (c :: cur)

/-- Tokenization modelling Python str.split with no arguments: split on
whitespace and drop empty pieces. -/
def tokenize (s : String) : List String :=
  (splitWsAux s.data []).filter fun t => t != ""

/-- Single-quote character as a string (built by code point to keep the
source free of quote literals). -/
def sQuote : String := String.mk [Char.ofNat 39]

/-! Action Executor: src/agent/tools.py, execute_shell.  The subprocess
call is an oracle from the command to an outcome; the wrapper always
returns a plain string. -/

/-- Possible outcomes of the underlying subprocess.run call: normal
completion with captured stdout, stderr and return code; a timeout; or a
raised exception with its message. -/
inductive ShellOutcome
  | completed (stdout stderr : String) (returncode : Int)
  | timedOut
  | raised (msg : String)
deriving DecidableEq

/-- Static deny-list from tools.py line 39. -/
def dangerous_commands : List String :=
  ["rm -rf", "sudo", "chmod 777", "dd if=", "mkfs", "fdisk"]

/-- True when the lowercased command contains some deny-list entry
(tools.py line 40). -/
def containsDangerous (command : String) : Bool :=
  dangerous_commands.any fun d => strContains (lowerStr command) d

/-- Embedding of execute_shell (tools.py lines 35-62): deny-list check,
then delegate to the subprocess oracle, formatting its outcome; timeout
and exceptions become descriptive strings. -/
def execute_shell (runner : String → ShellOutcome) (command : String) : String :=
  if containsDangerous command then
    "Command blocked for safety reasons."
  else
    match runner command with
    | .completed out err rc =>
        let o1 := if out != "" then "STDOUT:\n" ++ out ++ "\n" else ""
        let o2 := if err != "" then o1 ++ "STDERR:\n" ++ err ++ "\n" else o1
        o2 ++ "Return code: " ++ toString rc
    | .timedOut => "Command timed out after 30 seconds."
    | .raised msg => "Execution error: " ++ msg

/-! Execution Memory Store: src/agent/execution_engine.py. -/

/-- ExecutionStep dataclass (execution_engine.py lines 13-22). -/
structure ExecutionStep where
  step_number : Nat
  description : String
  action_type : String
  command : Option String
  result : Option String := none
  success : Bool := false
  timestamp : String := ""
  retry_count : Nat := 0
deriving DecidableEq

/-- One entry of a plan produced by the planning agent
(claude_engine.py line 18: description, action, optional command). -/
structure EnginePlanStep where
  description : String
  action : String
  command : Option String
deriving DecidableEq

/-- TaskExecution dataclass (execution_engine.py lines 24-34). -/
structure TaskExecution where
  task_id : String
  original_query : String
  research_phase : Option String := none
  plan : Option (List EnginePlanStep) := none
  steps : List ExecutionStep := []
  current_step : Nat := 0
  status : String := "planning"
  final_result : Option String := none
  created_at : String := ""
deriving DecidableEq

/-- Record of the successful_patterns table
(execution_engine.py lines 102-107). -/
structure SuccessPattern where
  action_type : String
  description_keywords : List String
  command : Option String
  success_count : Nat
deriving DecidableEq

/-- Record of the failed_patterns table
(execution_engine.py lines 121-126). -/
structure FailedPattern where
  action_type : String
  command : Option String
  error_context : String
  failure_count : Nat
deriving DecidableEq

/-- Task history entry written by complete_task
(execution_engine.py lines 168-174). -/
structure TaskSummary where
  task_id : String
  query : String
  success : Bool
  steps_count : Nat
  completed_at : String
deriving DecidableEq

/-- Shape of the persistent memory dictionary
(execution_engine.py lines 50-55). -/
structure PersistentMemory where
  successful_patterns : List SuccessPattern
  failed_patterns : List FailedPattern
  learned_commands : List (String × String)
  task_history : List TaskSummary
deriving DecidableEq

/-- Default persistent memory used when the file is missing or corrupt. -/
def emptyPersistentMemory : PersistentMemory :=
  { successful_patterns := []
    failed_patterns := []
    learned_commands := []
    task_history := [] }

/-! JSON values, modelling what json.dump writes and json.load parses. -/

/-- JSON value tree. -/
inductive Json
  | null
  | bool (b : Bool)
  | num (n : Int)
  | str (s : String)
  | arr (xs : List Json)
  | obj (fields : List (String × Json))

/-- State of the on-disk memory file: absent, present but not parseable
as JSON, or holding a parsed JSON value.  The store only ever writes
the encoding of a PersistentMemory, so parseable files of a different
shape are unreachable from store operations. -/
inductive FileState
  | missing
  | corrupt
  | stored (j : Json)

/-- Encoding of an optional string: None becomes JSON null. -/
def encodeOptStr : Option String → Json
  | none => .null
  | some s => .str s

/-- JSON encoding of a successful pattern record. -/
def encodeSuccessPattern (p : SuccessPattern) : Json :=
  .obj [("action_type", .str p.action_type),
        ("description_keywords", .arr (p.description_keywords.map .str)),
        ("command", encodeOptStr p.command),
        ("success_count", .num (Int.ofNat p.success_count))]

/-- JSON encoding of a failed pattern record. -/
def encodeFailedPattern (p : FailedPattern) : Json :=
  .obj [("action_type", .str p.action_type),
        ("command", encodeOptStr p.command),
        ("error_context", .str p.error_context),
        ("failure_count", .num (Int.ofNat p.failure_count))]

/-- JSON encoding of a task history entry. -/
def encodeTaskSummary (t : TaskSummary) : Json :=
  .obj [("task_id", .str t.task_id),
        ("query", .str t.query),
        ("success", .bool t.success),
        ("steps_count", .num (Int.ofNat t.steps_count)),
        ("completed_at", .str t.completed_at)]

/-- JSON encoding of the whole persistent memory dictionary. -/
def encodeMemory (pm : PersistentMemory) : Json :=
  .obj [("successful_patterns", .arr (pm.successful_patterns.map encodeSuccessPattern)),
        ("failed_patterns", .arr (pm.failed_patterns.map encodeFailedPattern)),
        ("learned_commands", .obj (pm.learned_commands.map fun kv => (kv.1, Json.str kv.2))),
        ("task_history", .arr (pm.task_history.map encodeTaskSummary))]

/-- Lookup of a field in a JSON object field list. -/
def getField : List (String × Json) → String → Option Json
  | [], _ => none
  | (k, v) :: rest, key => if k == key then some v else getField rest key

/-- Decoder for JSON strings. -/
def decodeStr : Json → Option String
  | .str s => some s
  | _ => none

/-- Decoder for optional strings (null or string). -/
def decodeOptStr : Json → Option (Option String)
  | .null => some none
  | .str s => some (some s)
  | _ => none

/-- Decoder for booleans. -/
def decodeBool : Json → Option Bool
  | .bool b => some b
  | _ => none

/-- Decoder for natural numbers stored as JSON integers. -/
def decodeNat : Json → Option Nat
  | .num n => if 0 ≤ n then some n.toNat else none
  | _ => none

/-- Decoder for a list of JSON values, failing if any element fails. -/
def decodeList (f : Json → Option α) : List Json → Option (List α)
  | [] => some []
  | j :: rest =>
    match f j with
    | none => none
    | some a => (decodeList f rest).map (a :: ·)

/-- Decoder for a string-to-string object. -/
def decodeStrPairs : List (String × Json) → Option (List (String × String))
  | [] => some []
  | (k, v) :: rest =>
    match decodeStr v with
    | none => none
    | some s => (decodeStrPairs rest).map ((k, s) :: ·)

/-- Decoder for a successful pattern record. -/
def decodeSuccessPattern : Json → Option SuccessPattern
  | .obj fs => do
    let a ← (getField fs "action_type").bind decodeStr
    let kws ← (getField fs "description_keywords").bind fun j =>
      match j with
      | .arr xs => decodeList decodeStr xs
      | _ => none
    let c ← (getField fs "command").bind decodeOptStr
    let n ← (getField fs "success_count").bind decodeNat
    pure { action_type := a, description_keywords := kws, command := c, success_count := n }
  | _ => none

/-- Decoder for a failed pattern record. -/
def decodeFailedPattern : Json → Option FailedPattern
  | .obj fs => do
    let a ← (getField fs "action_type").bind decodeStr
    let c ← (getField fs "command").bind decodeOptStr
    let e ← (getField fs "error_context").bind decodeStr
    let n ← (getField fs "failure_count").bind decodeNat
    pure { action_type := a, command := c, error_context := e, failure_count := n }
  | _ => none

/-- Decoder for a task history entry. -/
def decodeTaskSummary : Json → Option TaskSummary
  | .obj fs => do
    let tid ← (getField fs "task_id").bind decodeStr
    let q ← (getField fs "query").bind decodeStr
    let s ← (getField fs "success").bind decodeBool
    let n ← (getField fs "steps_count").bind decodeNat
    let c ← (getField fs "completed_at").bind decodeStr
    pure { task_id := tid, query := q, success := s, steps_count := n, completed_at := c }
  | _ => none

/-- Decoder for the whole persistent memory dictionary. -/
def decodeMemory : Json → Option PersistentMemory
  | .obj fs => do
    let sp ← (getField fs "successful_patterns").bind fun j =>
      match j with
      | .arr xs => decodeList decodeSuccessPattern xs
      | _ => none
    let fp ← (getField fs "failed_patterns").bind fun j =>
      match j with
      | .arr xs => decodeList decodeFailedPattern xs
      | _ => none
    let lc ← (getField fs "learned_commands").bind fun j =>
      match j with
      | .obj kvs => decodeStrPairs kvs
      | _ => none
    let th ← (getField fs "task_history").bind fun j =>
      match j with
      | .arr xs => decodeList decodeTaskSummary xs
      | _ => none
    pure { successful_patterns := sp, failed_patterns := fp,
           learned_commands := lc, task_history := th }
  | _ => none

/-! The store itself: state is the optional in-flight task, the in-memory
persistent tables, and the on-disk file. -/

/-- State of an ExecutionMemory instance together with its backing file
(execution_engine.py lines 36-40). -/
structure ExecutionMemory where
  current_execution : Option TaskExecution
  persistent_memory : PersistentMemory
  file : FileState

/-- Embedding of ExecutionMemory._load_persistent_memory
(execution_engine.py lines 42-55): a missing or unparseable file yields
the empty default tables.  The Python code returns the parsed JSON value
unvalidated; files that parse but do not decode to the memory shape are
unreachable from store writes, and the decoder default covers them. -/
def _load_persistent_memory : FileState → PersistentMemory
  | .missing => emptyPersistentMemory
  | .corrupt => emptyPersistentMemory
  | .stored j => (decodeMemory j).getD emptyPersistentMemory

/-- Embedding of ExecutionMemory._save_persistent_memory
(execution_engine.py lines 57-64): the whole in-memory dictionary is
serialized and written to the file. -/
def _save_persistent_memory (m : ExecutionMemory) : ExecutionMemory :=
  { m with file := .stored (encodeMemory m.persistent_memory) }

/-- Construction of an ExecutionMemory from a file state, modelling
ExecutionMemory.__init__ (execution_engine.py lines 37-40). -/
def ExecutionMemory.init (f : FileState) : ExecutionMemory :=
  { current_execution := none
    persistent_memory := _load_persistent_memory f
    file := f }

/-- Embedding of start_task (execution_engine.py lines 66-75): a fresh
task is installed unconditionally; the two time strings (strftime id
suffix and isoformat creation time) are oracle inputs.  There is no
check that a task is already active. -/
def start_task (nowStr isoStr query : String) (m : ExecutionMemory) :
    ExecutionMemory × String :=
  let tid := "task_" ++ nowStr
  let t : TaskExecution :=
    { task_id := tid, original_query := query, steps := [], created_at := isoStr }
  ({ m with current_execution := some t }, tid)

/-- Embedding of add_research (execution_engine.py lines 77-80): sets the
research field when a task is active, silently does nothing otherwise. -/
def add_research (m : ExecutionMemory) (research_result : String) : ExecutionMemory :=
  match m.current_execution with
  | none => m
  | some t => { m with current_execution := some { t with research_phase := some research_result } }

/-- Embedding of set_plan (execution_engine.py lines 82-86): sets the plan
and moves status to executing when a task is active, silently does
nothing otherwise. -/
def set_plan (m : ExecutionMemory) (plan : List EnginePlanStep) : ExecutionMemory :=
  match m.current_execution with
  | none => m
  | some t => { m with current_execution := some { t with plan := some plan, status := "executing" } }

/-- First-match increment in the successful pattern table
(execution_engine.py lines 110-114): returns the updated table when some
record matches on action type and command, none otherwise. -/
def bumpSuccess : List SuccessPattern → String → Option String →
    Option (List SuccessPattern)
  | [], _, _ => none
  | p :: ps, at_, cmd =>
    if p.action_type == at_ && p.command == cmd then
      some ({ p with success_count := p.success_count + 1 } :: ps)
    else
      (bumpSuccess ps at_ cmd).map (p :: ·)

/-- First-match increment in the failed pattern table
(execution_engine.py lines 129-133). -/
def bumpFailed : List FailedPattern → String → Option String →
    Option (List FailedPattern)
  | [], _, _ => none
  | p :: ps, at_, cmd =>
    if p.action_type == at_ && p.command == cmd then
      some ({ p with failure_count := p.failure_count + 1 } :: ps)
    else
      (bumpFailed ps at_ cmd).map (p :: ·)

/-- Embedding of _learn_successful_pattern (execution_engine.py lines
100-117): when a record with the same action type and command exists its
count is incremented and the function returns WITHOUT saving; otherwise
the new record is appended and the store is flushed. -/
def learn_successful_pattern (m : ExecutionMemory) (step : ExecutionStep) : ExecutionMemory :=
  let pat : SuccessPattern :=
    { action_type := step.action_type
      description_keywords := (tokenize (lowerStr step.description)).take 5
      command := step.command
      success_count := 1 }
  match bumpSuccess m.persistent_memory.successful_patterns step.action_type step.command with
  | some ps' =>
    { m with persistent_memory := { m.persistent_memory with successful_patterns := ps' } }
  | none =>
    _save_persistent_memory
      { m with persistent_memory :=
          { m.persistent_memory with
              successful_patterns := m.persistent_memory.successful_patterns ++ [pat] } }

/-- Embedding of _learn_failed_pattern (execution_engine.py lines
119-136): same structure as the successful case, with the error context
truncated to 200 characters (empty when the result is absent). -/
def learn_failed_pattern (m : ExecutionMemory) (step : ExecutionStep) : ExecutionMemory :=
  let pat : FailedPattern :=
    { action_type := step.action_type
      command := step.command
      error_context := (step.result.getD "").take 200
      failure_count := 1 }
  match bumpFailed m.persistent_memory.failed_patterns step.action_type step.command with
  | some ps' =>
    { m with persistent_memory := { m.persistent_memory with failed_patterns := ps' } }
  | none =>
    _save_persistent_memory
      { m with persistent_memory :=
          { m.persistent_memory with
              failed_patterns := m.persistent_memory.failed_patterns ++ [pat] } }

/-- Embedding of add_step_result (execution_engine.py lines 88-98): with
an active task the step gets its timestamp, is appended to the task, and
feeds pattern learning by success flavor; with no active task nothing
happens. -/
def add_step_result (ts : String) (m : ExecutionMemory) (step : ExecutionStep) : ExecutionMemory :=
  match m.current_execution with
  | none => m
  | some t =>
    let step' := { step with timestamp := ts }
    let m' := { m with current_execution := some { t with steps := t.steps ++ [step'] } }
    if step'.success then learn_successful_pattern m' step'
    else learn_failed_pattern m' step'

/-- Result shape of get_relevant_memory (execution_engine.py lines
140-144). -/
structure RelevantMemory where
  successful_commands : List (Option String)
  failed_commands : List (Option String)
  suggestions : List String
deriving DecidableEq

/-- Embedding of get_relevant_memory (execution_engine.py lines 138-159):
successful patterns match when the action type equals the query and some
query token is a member of the stored keyword list; failed patterns
match on action type alone. -/
def get_relevant_memory (m : ExecutionMemory) (action_type description : String) :
    RelevantMemory :=
  let keywords := tokenize (lowerStr description)
  { successful_commands :=
      (m.persistent_memory.successful_patterns.filter fun p =>
        p.action_type == action_type &&
          keywords.any fun kw => p.description_keywords.contains kw).map (fun p => p.command)
    failed_commands :=
      (m.persistent_memory.failed_patterns.filter fun p =>
        p.action_type == action_type).map (fun p => p.command)
    suggestions := [] }

/-- Embedding of complete_task (execution_engine.py lines 161-177): with
an active task, sets the final result and terminal status, appends a
history entry and flushes; the task object is kept (the code never
clears current_execution). -/
def complete_task (now : String) (m : ExecutionMemory) (final_result : String)
    (success : Bool) : ExecutionMemory :=
  match m.current_execution with
  | none => m
  | some t =>
    let t' := { t with final_result := some final_result,
                       status := if success then "completed" else "failed" }
    let summary : TaskSummary :=
      { task_id := t.task_id
        query := t.original_query
        success := success
        steps_count := t.steps.length
        completed_at := now }
    _save_persistent_memory
      { m with
          current_execution := some t',
          persistent_memory :=
            { m.persistent_memory with
                task_history := m.persistent_memory.task_history ++ [summary] } }

/-- Folding a list of step outcomes into the store, one add_step_result
call per step. -/
def record_all (ts : String) (m : ExecutionMemory) (steps : List ExecutionStep) :
    ExecutionMemory :=
  steps.foldl (fun mm s => add_step_result ts mm s) m

/-! Claude-style engine: src/agent/claude_engine.py, claude_code_execution.
The three reasoning agents and the external capabilities are oracles;
print-only fields (confidence levels, issues, next_action) and the
yielded progress text are omitted because nothing reads them. -/

/-- Result of an external call that can raise an exception. -/
inductive ExtRes (α : Type)
  | ok (a : α)
  | exn (msg : String)

/-- Research agent result (claude_engine.py lines 9-14); the float
confidence level is print-only and omitted. -/
structure ResearchResult where
  summary : String
  key_findings : List String
  needs_more_research : Bool

/-- Planning agent result (claude_engine.py lines 16-20); the
requires_verification flag is never read by the engine. -/
structure ExecutionPlan where
  steps : List EnginePlanStep
  estimated_difficulty : String

/-- Verification agent result (claude_engine.py lines 22-29), restricted
to the fields the engine reads: success, should_retry and should_replan
(issues_found is print-only, confidence and next_action are never read). -/
structure StepVerification where
  success : Bool
  should_retry : Bool
  should_replan : Bool
deriving DecidableEq

/-- Oracles for one engine run: the research and plan calls, the
verification call per (step index, retry count), the search capability
result per (step index, retry count), and the subprocess behavior per
(step index, retry count). -/
structure EngineOracle where
  research : ExtRes ResearchResult
  plan : ExtRes ExecutionPlan
  verify : Nat → Nat → ExtRes StepVerification
  search_result : Nat → Nat → String
  shell_runner : Nat → Nat → String → ShellOutcome

/-- Retry budget of the engine loop (claude_engine.py line 155). -/
def max_retries : Nat := 3

/-- Result text of one step attempt (claude_engine.py lines 160-167):
search delegates to the search capability (search_web catches its own
exceptions and always returns a string), shell delegates to
execute_shell; an absent command on a shell step raises inside
execute_shell before the deny check, caught into an execution-error
string; other action kinds produce the unknown-action message. -/
def stepActionResult (o : EngineOracle) (i rc : Nat) (st : ExecutionStep) : String :=
  if st.action_type == "search" then
    o.search_result i rc
  else if st.action_type == "shell" then
    match st.command with
    | some c => execute_shell (o.shell_runner i rc) c
    | none =>
      "Execution error: " ++ sQuote ++ "NoneType" ++ sQuote ++
        " object has no attribute " ++ sQuote ++ "lower" ++ sQuote
  else
    "Unknown action type: " ++ st.action_type

/-- How the per-step while loop was left: break to the next step, or a
return from the whole generator (the replan branch). -/
inductive StepExit
  | brk
  | ret
deriving DecidableEq

/-- Embedding of the per-step while loop (claude_engine.py lines
158-211).  The fuel argument only bounds recursion: the engine enters
with fuel = max_retries and every recursive call increments retry_count
while consuming one fuel, so the guard retry_count < max_retries is
always reached before fuel runs out and the fuel-zero case coincides
with the guard-false case.  The third component counts how many times
the step body executed. -/
def step_loop (o : EngineOracle) (ts : String) (i : Nat) :
    Nat → ExecutionMemory → ExecutionStep → Nat → ExecutionMemory × StepExit × Nat
  | 0, m, _, _ => (m, .brk, 0)
  | fuel + 1, m, st, rc =>
    if rc < max_retries then
      let st1 := { st with result := some (stepActionResult o i rc st) }
      match o.verify i rc with
      | .exn msg =>
        let st2 := { st1 with result := some ("Error: " ++ msg), success := false }
        if rc + 1 ≥ max_retries then
          (add_step_result ts m st2, .brk, 1)
        else
          let r := step_loop o ts i fuel m st2 (rc + 1)
          (r.1, r.2.1, r.2.2 + 1)
      | .ok v =>
        let st2 := { st1 with success := v.success, retry_count := rc }
        if v.success then
          (add_step_result ts m st2, .brk, 1)
        else if v.should_replan then
          (add_step_result ts m st2, .ret, 1)
        else if v.should_retry && rc < max_retries - 1 then
          let r := step_loop o ts i fuel m st2 (rc + 1)
          (r.1, r.2.1, r.2.2 + 1)
        else
          (add_step_result ts m st2, .brk, 1)
    else (m, .brk, 0)

/-- Iteration over the plan steps (claude_engine.py lines 135-213),
1-based step numbering via enumerate; a return exit from the step loop
stops the whole iteration.  The read-only get_relevant_memory call made
for progress text is stateless and omitted. -/
def run_steps (o : EngineOracle) (ts : String) :
    ExecutionMemory → List EnginePlanStep → Nat → ExecutionMemory × StepExit
  | m, [], _ => (m, .brk)
  | m, sd :: rest, i =>
    let st : ExecutionStep :=
      { step_number := i
        description := sd.description
        action_type := sd.action
        command := sd.command }
    let r := step_loop o ts i max_retries m st 0
    match r.2.1 with
    | .ret => (r.1, .ret)
    | .brk => run_steps o ts r.1 rest (i + 1)

/-- How one engine run terminated: the normal completion path, the
early return of the replan branch, or the outer exception handler. -/
inductive EngineExit
  | completedNormally
  | replanReturn
  | fault (msg : String)
deriving DecidableEq

/-- Embedding of claude_code_execution (claude_engine.py lines 81-224):
start the task, run research (a raised exception is caught by the outer
handler, which completes the task as failed), record the summary, run
planning (same handling), set the plan, iterate the steps, and on
normal exit complete the task as successful.  The replan branch returns
from the generator without calling complete_task.  All datetime calls
are collapsed to the single oracle string ts. -/
def claude_code_execution (o : EngineOracle) (ts query : String)
    (m0 : ExecutionMemory) : ExecutionMemory × EngineExit :=
  let m1 := (start_task ts ts query m0).1
  match o.research with
  | .exn msg =>
    let em := "Execution failed: " ++ msg
    (complete_task ts m1 em false, .fault em)
  | .ok rr =>
    let m2 := add_research m1 rr.summary
    match o.plan with
    | .exn msg =>
      let em := "Execution failed: " ++ msg
      (complete_task ts m2 em false, .fault em)
    | .ok pl =>
      let m3 := set_plan m2 pl.steps
      let r := run_steps o ts m3 pl.steps 1
      match r.2 with
      | .ret => (r.1, .replanReturn)
      | .brk =>
        let fr := "Task " ++ sQuote ++ query ++ sQuote ++ " executed with " ++
          toString pl.steps.length ++ " steps"
        (complete_task ts r.1 fr true, .completedNormally)

/-! Legacy plan executor: src/agent/agent.py, process_request lines
164-176 (the complex-path step loop).  Classification and planning are
external; the loop over typed plan steps is embedded. -/

/-- PlanStep model (agent.py lines 31-36). -/
structure AgentPlanStep where
  step_number : Nat
  description : String
  action_type : String
  command : Option String
deriving DecidableEq

/-- Result of the plan loop: either the clarification short-circuit
return or the joined per-step result list. -/
inductive PRResult
  | clarification (msg : String)
  | results (rs : List String)
deriving DecidableEq

/-- Python truthiness of the optional command string: None and the empty
string are falsy. -/
def isTruthyOpt : Option String → Bool
  | none => false
  | some s => s != ""

/-- Formatting of one executed step result line (agent.py lines 169 and
172). -/
def fmtStepResult (st : AgentPlanStep) (res : String) : String :=
  "Step " ++ toString st.step_number ++ ": " ++ st.description ++
    "\nResult: " ++ res ++ "\n"

/-- Embedding of the step loop of process_request (agent.py lines
165-176): search and shell steps with a truthy command execute and
append a result line; a clarify step returns immediately with the
clarification message; any other step is skipped. -/
def run_plan_steps (searchR : String → String) (runner : String → ShellOutcome) :
    List AgentPlanStep → List String → PRResult
  | [], acc => .results acc
  | st :: rest, acc =>
    if st.action_type == "search" && isTruthyOpt st.command then
      run_plan_steps searchR runner rest
        (acc ++ [fmtStepResult st (searchR (st.command.getD ""))])
    else if st.action_type == "shell" && isTruthyOpt st.command then
      run_plan_steps searchR runner rest
        (acc ++ [fmtStepResult st (execute_shell runner (st.command.getD ""))])
    else if st.action_type == "clarify" then
      .clarification ("I need clarification for step " ++ toString st.step_number ++
        ": " ++ st.description)
    else
      run_plan_steps searchR runner rest acc

/-! Projections and concrete inputs used in the statements below. -/

/-- Status of the in-flight task, when one exists. -/
def statusOf (m : ExecutionMemory) : Option String :=
  m.current_execution.map fun t => t.status

/-- Persistent task history of a store state. -/
def historyOf (m : ExecutionMemory) : List TaskSummary :=
  m.persistent_memory.task_history

/-- Store state freshly constructed from a missing file. -/
def freshMemory : ExecutionMemory := ExecutionMemory.init .missing

/-- Fresh store with one active task, used as a concrete base state. -/
def activeMemory : ExecutionMemory := (start_task "t0" "i0" "demo goal" freshMemory).1

/-- Concrete successful shell step with description alpha list files. -/
def stepAlpha : ExecutionStep :=
  { step_number := 1, description := "Alpha list files", action_type := "shell",
    command := some "ls", success := true }

/-- Concrete successful shell step with the same action and command as
stepAlpha but a different description. -/
def stepBeta : ExecutionStep :=
  { step_number := 2, description := "Beta remove stuff", action_type := "shell",
    command := some "ls", success := true }

/-- Engine oracle whose single verification signals a replan. -/
def oReplan : EngineOracle :=
  { research := .ok { summary := "r", key_findings := [], needs_more_research := false }
    plan := .ok { steps := [{ description := "list", action := "shell", command := some "ls" }],
                  estimated_difficulty := "easy" }
    verify := fun _ _ => .ok { success := false, should_retry := false, should_replan := true }
    search_result := fun _ _ => "search ok"
    shell_runner := fun _ _ _ => .completed "ok" "" 0 }

/-- Engine oracle with a clarify step followed by a shell step, every
verification succeeding. -/
def oClarify : EngineOracle :=
  { research := .ok { summary := "r", key_findings := [], needs_more_research := false }
    plan := .ok { steps := [{ description := "ask the user", action := "clarify", command := none },
                            { description := "list", action := "shell", command := some "ls" }],
                  estimated_difficulty := "easy" }
    verify := fun _ _ => .ok { success := true, should_retry := false, should_replan := false }
    search_result := fun _ _ => "search ok"
    shell_runner := fun _ _ _ => .completed "ok" "" 0 }

/-- Engine oracle whose verification always asks for a retry. -/
def oRetry : EngineOracle :=
  { research := .ok { summary := "r", key_findings := [], needs_more_research := false }
    plan := .ok { steps := [{ description := "list", action := "shell", command := some "ls" }],
                  estimated_difficulty := "easy" }
    verify := fun _ _ => .ok { success := false, should_retry := true, should_replan := false }
    search_result := fun _ _ => "search ok"
    shell_runner := fun _ _ _ => .completed "ok" "" 0 }

/-- In-flight task of the concrete activeMemory state. -/
def tDemo : TaskExecution :=
  { task_id := "task_t0", original_query := "demo goal", steps := [], created_at := "i0" }

/-! Theorems.  Claim theorems are marked with their claim id; the other
lemmas are shared infrastructure. -/

/-- Claim C5: a command containing a deny-list substring after
lowercasing is answered with the fixed blocked-result string for every
possible behavior of the underlying shell capability (so the capability
is never consulted), and for a non-blocked command an exception raised
by the capability is converted into a plain execution-error string
rather than propagating. -/
theorem execute_shell_denylist :
    (∀ command runner, containsDangerous command = true →
      execute_shell runner command = "Command blocked for safety reasons.") ∧
    (∀ command msg, containsDangerous command = false →
      execute_shell (fun _ => ShellOutcome.raised msg) command = "Execution error: " ++ msg) := by
  constructor
  · intro command runner h
    simp [execute_shell, h]
  · intro command msg h
    simp [execute_shell, h]

/-- Witness for C5: the concrete command rm -rf /tmp/x is blocked. -/
theorem execute_shell_denylist_witness :
    execute_shell (fun _ => ShellOutcome.completed "" "" 0) "rm -rf /tmp/x" =
      "Command blocked for safety reasons." :=
  execute_shell_denylist.1 "rm -rf /tmp/x" (fun _ => ShellOutcome.completed "" "" 0) (by decide)

/-- Counterexample for C7: starting a task while one is active does not
fail; the second start_task succeeds and silently installs a new task in
place of the in-flight one. -/
theorem start_task_silent_replace_cex :
    ((start_task "t1" "i1" "first goal" freshMemory).1.current_execution =
      some { task_id := "task_t1", original_query := "first goal", steps := [],
             created_at := "i1" }) ∧
    ((start_task "t2" "i2" "second goal"
        (start_task "t1" "i1" "first goal" freshMemory).1).1.current_execution =
      some { task_id := "task_t2", original_query := "second goal", steps := [],
             created_at := "i2" }) :=
  ⟨rfl, rfl⟩

/-- Claim C7 as amended: start_task never raises a StateError; it always
succeeds, installing a fresh task record (thereby silently replacing any
active one) and returning the derived task id. -/
theorem start_task_always_installs_new_task (nowStr isoStr query : String)
    (m : ExecutionMemory) :
    (start_task nowStr isoStr query m).1.current_execution =
      some { task_id := "task_" ++ nowStr, original_query := query, steps := [],
             created_at := isoStr } ∧
    (start_task nowStr isoStr query m).2 = "task_" ++ nowStr :=
  ⟨rfl, rfl⟩

/-- Counterexample for C8: with no active task, add_research and
set_plan complete silently and leave the store unchanged instead of
failing with a StateError. -/
theorem mutators_silent_noop_cex :
    add_research freshMemory "some research" = freshMemory ∧
    set_plan freshMemory [{ description := "d", action := "shell", command := some "ls" }] =
      freshMemory :=
  ⟨rfl, rfl⟩

/-- Claim C8 as amended: when no task is active, add_research and
set_plan are silent no-ops (no StateError); when a task is active they
set the research summary, respectively the plan (and move the status to
executing). -/
theorem add_research_set_plan_behavior :
    (∀ m r, m.current_execution = none → add_research m r = m) ∧
    (∀ m p, m.current_execution = none → set_plan m p = m) ∧
    (∀ m t r, m.current_execution = some t →
      add_research m r =
        { m with current_execution := some { t with research_phase := some r } }) ∧
    (∀ m t p, m.current_execution = some t →
      set_plan m p =
        { m with current_execution := some { t with plan := some p, status := "executing" } }) := by
  refine ⟨?_, ?_, ?_, ?_⟩
  · intro m r h
    simp [add_research, h]
  · intro m p h
    simp [set_plan, h]
  · intro m t r h
    simp [add_research, h]
  · intro m t p h
    simp [set_plan, h]

/-- Witness for C8: the no-active-task case at a concrete store. -/
theorem add_research_set_plan_behavior_witness :
    add_research freshMemory "note" = freshMemory :=
  add_research_set_plan_behavior.1 freshMemory "note" rfl

/-- Decoding inverts encoding for optional strings. -/
theorem decodeOptStr_encode (o : Option String) :
    decodeOptStr (encodeOptStr o) = some o := by
  cases o <;> rfl

/-- Decoding inverts encoding for naturals stored as JSON integers. -/
theorem decodeNat_encode (n : Nat) : decodeNat (Json.num ((n : Nat) : Int)) = some n := by
  have h : (0 : Int) ≤ ((n : Nat) : Int) := Int.natCast_nonneg n
  simp [decodeNat, h]

/-- Element-wise decoders lift to lists of encoded elements. -/
theorem decodeList_map {α : Type} (f : α → Json) (g : Json → Option α)
    (h : ∀ a, g (f a) = some a) : ∀ l : List α, decodeList g (l.map f) = some l := by
  intro l
  induction l with
  | nil => rfl
  | cons a as ih => simp [decodeList, h, ih]

/-- Decoding inverts encoding for string-to-string objects. -/
theorem decodeStrPairs_map : ∀ l : List (String × String),
    decodeStrPairs (l.map fun kv => (kv.1, Json.str kv.2)) = some l := by
  intro l
  induction l with
  | nil => rfl
  | cons kv rest ih => simp [decodeStrPairs, decodeStr, ih]

/-- Decoding inverts encoding for successful pattern records. -/
theorem decodeSuccessPattern_encode (p : SuccessPattern) :
    decodeSuccessPattern (encodeSuccessPattern p) = some p := by
  simp [decodeSuccessPattern, encodeSuccessPattern, getField, decodeStr,
    decodeOptStr_encode, decodeNat_encode, decodeList_map Json.str decodeStr fun _ => rfl]

/-- Decoding inverts encoding for failed pattern records. -/
theorem decodeFailedPattern_encode (p : FailedPattern) :
    decodeFailedPattern (encodeFailedPattern p) = some p := by
  simp [decodeFailedPattern, encodeFailedPattern, getField, decodeStr,
    decodeOptStr_encode, decodeNat_encode]

/-- Decoding inverts encoding for task history entries. -/
theorem decodeTaskSummary_encode (t : TaskSummary) :
    decodeTaskSummary (encodeTaskSummary t) = some t := by
  simp [decodeTaskSummary, encodeTaskSummary, getField, decodeStr, decodeBool,
    decodeNat_encode]

/-- Decoding inverts encoding for the whole persistent memory. -/
theorem decodeMemory_encode (pm : PersistentMemory) :
    decodeMemory (encodeMemory pm) = some pm := by
  simp [decodeMemory, encodeMemory, getField,
    decodeList_map encodeSuccessPattern decodeSuccessPattern decodeSuccessPattern_encode,
    decodeList_map encodeFailedPattern decodeFailedPattern decodeFailedPattern_encode,
    decodeList_map encodeTaskSummary decodeTaskSummary decodeTaskSummary_encode,
    decodeStrPairs_map]

/-- Loading a file that stores an encoded memory yields that memory. -/
theorem load_stored_encode (pm : PersistentMemory) :
    _load_persistent_memory (.stored (encodeMemory pm)) = pm := by
  simp [_load_persistent_memory, decodeMemory_encode]

/-- Claim C9: reconstructing a store from the file written by a save
yields exactly the saved pattern tables and history, and construction
from a missing or corrupt file initializes the empty tables instead of
failing. -/
theorem persistence_roundtrip :
    (∀ m : ExecutionMemory,
      (ExecutionMemory.init (_save_persistent_memory m).file).persistent_memory =
        m.persistent_memory) ∧
    (ExecutionMemory.init .missing).persistent_memory = emptyPersistentMemory ∧
    (ExecutionMemory.init .corrupt).persistent_memory = emptyPersistentMemory := by
  refine ⟨?_, rfl, rfl⟩
  intro m
  simp [ExecutionMemory.init, _save_persistent_memory, load_stored_encode]

/-- Saving then loading reads back exactly the in-memory tables. -/
theorem save_load_self (m : ExecutionMemory) :
    _load_persistent_memory (_save_persistent_memory m).file =
      (_save_persistent_memory m).persistent_memory := by
  simp [_save_persistent_memory, load_stored_encode]

/-- bumpSuccess finds no record when the filter for the pair is empty. -/
theorem bumpSuccess_of_filter_nil (a : String) (c : Option String) :
    ∀ ps : List SuccessPattern,
      (ps.filter fun p => p.action_type == a && p.command == c) = [] →
      bumpSuccess ps a c = none := by
  intro ps
  induction ps with
  | nil => intro _; rfl
  | cons p ps ih =>
    intro h
    rw [List.filter_cons] at h
    by_cases hp : (p.action_type == a && p.command == c) = true
    · simp [hp] at h
    · rw [if_neg hp] at h
      simp [bumpSuccess, hp, ih h]

/-- bumpSuccess on a table whose unique match is p0 increments exactly
that record. -/
theorem bumpSuccess_of_filter_single (a : String) (c : Option String) (p0 : SuccessPattern) :
    ∀ ps : List SuccessPattern,
      (ps.filter fun p => p.action_type == a && p.command == c) = [p0] →
      ∃ ps', bumpSuccess ps a c = some ps' ∧
        (ps'.filter fun p => p.action_type == a && p.command == c) =
          [{ p0 with success_count := p0.success_count + 1 }] := by
  intro ps
  induction ps with
  | nil => intro h; simp at h
  | cons p ps ih =>
    intro h
    rw [List.filter_cons] at h
    by_cases hp : (p.action_type == a && p.command == c) = true
    · rw [if_pos hp] at h
      injection h with h1 h2
      refine ⟨{ p with success_count := p.success_count + 1 } :: ps, ?_, ?_⟩
      · simp [bumpSuccess, hp]
      · rw [List.filter_cons, if_pos (by simpa using hp)]
        rw [h2, h1]
    · rw [if_neg hp] at h
      obtain ⟨ps', hb, hf⟩ := ih h
      refine ⟨p :: ps', ?_, ?_⟩
      · simp [bumpSuccess, hp, hb]
      · rw [List.filter_cons, if_neg hp]
        exact hf

/-- bumpFailed finds no record when the filter for the pair is empty. -/
theorem bumpFailed_of_filter_nil (a : String) (c : Option String) :
    ∀ ps : List FailedPattern,
      (ps.filter fun p => p.action_type == a && p.command == c) = [] →
      bumpFailed ps a c = none := by
  intro ps
  induction ps with
  | nil => intro _; rfl
  | cons p ps ih =>
    intro h
    rw [List.filter_cons] at h
    by_cases hp : (p.action_type == a && p.command == c) = true
    · simp [hp] at h
    · rw [if_neg hp] at h
      simp [bumpFailed, hp, ih h]

/-- bumpFailed on a table whose unique match is p0 increments exactly
that record. -/
theorem bumpFailed_of_filter_single (a : String) (c : Option String) (p0 : FailedPattern) :
    ∀ ps : List FailedPattern,
      (ps.filter fun p => p.action_type == a && p.command == c) = [p0] →
      ∃ ps', bumpFailed ps a c = some ps' ∧
        (ps'.filter fun p => p.action_type == a && p.command == c) =
          [{ p0 with failure_count := p0.failure_count + 1 }] := by
  intro ps
  induction ps with
  | nil => intro h; simp at h
  | cons p ps ih =>
    intro h
    rw [List.filter_cons] at h
    by_cases hp : (p.action_type == a && p.command == c) = true
    · rw [if_pos hp] at h
      injection h with h1 h2
      refine ⟨{ p with failure_count := p.failure_count + 1 } :: ps, ?_, ?_⟩
      · simp [bumpFailed, hp]
      · rw [List.filter_cons, if_pos (by simpa using hp)]
        rw [h2, h1]
    · rw [if_neg hp] at h
      obtain ⟨ps', hb, hf⟩ := ih h
      refine ⟨p :: ps', ?_, ?_⟩
      · simp [bumpFailed, hp, hb]
      · rw [List.filter_cons, if_neg hp]
        exact hf

/-- With an active task, recording a successful step reduces to pattern
learning on the state with the step appended. -/
theorem add_step_result_succ (ts : String) (m : ExecutionMemory) (step : ExecutionStep)
    (t : TaskExecution) (hact : m.current_execution = some t)
    (hsucc : step.success = true) :
    add_step_result ts m step =
      learn_successful_pattern
        { m with
            current_execution := some
              ({ t with steps := t.steps ++ [{ step with timestamp := ts }] }) }
        { step with timestamp := ts } := by
  simp [add_step_result, hact, hsucc]

/-- With an active task, recording a failed step reduces to failed
pattern learning on the state with the step appended. -/
theorem add_step_result_fail (ts : String) (m : ExecutionMemory) (step : ExecutionStep)
    (t : TaskExecution) (hact : m.current_execution = some t)
    (hsucc : step.success = false) :
    add_step_result ts m step =
      learn_failed_pattern
        { m with
            current_execution := some
              ({ t with steps := t.steps ++ [{ step with timestamp := ts }] }) }
        { step with timestamp := ts } := by
  simp [add_step_result, hact, hsucc]

/-- Learning a successful pattern with no existing match appends the new
record and flushes. -/
theorem learn_succ_new (m : ExecutionMemory) (st : ExecutionStep)
    (h : (m.persistent_memory.successful_patterns.filter fun p =>
      p.action_type == st.action_type && p.command == st.command) = []) :
    learn_successful_pattern m st =
      _save_persistent_memory
        { m with persistent_memory :=
            { m.persistent_memory with successful_patterns :=
                m.persistent_memory.successful_patterns ++
                  [{ action_type := st.action_type,
                     description_keywords := (tokenize (lowerStr st.description)).take 5,
                     command := st.command, success_count := 1 }] } } := by
  have hb := bumpSuccess_of_filter_nil st.action_type st.command _ h
  simp [learn_successful_pattern, hb]

/-- Learning a failed pattern with no existing match appends the new
record and flushes. -/
theorem learn_fail_new (m : ExecutionMemory) (st : ExecutionStep)
    (h : (m.persistent_memory.failed_patterns.filter fun p =>
      p.action_type == st.action_type && p.command == st.command) = []) :
    learn_failed_pattern m st =
      _save_persistent_memory
        { m with persistent_memory :=
            { m.persistent_memory with failed_patterns :=
                m.persistent_memory.failed_patterns ++
                  [{ action_type := st.action_type, command := st.command,
                     error_context := (st.result.getD "").take 200,
                     failure_count := 1 }] } } := by
  have hb := bumpFailed_of_filter_nil st.action_type st.command _ h
  simp [learn_failed_pattern, hb]

/-- Completing an active task reduces to a flush of the state with the
terminal status set and the history entry appended. -/
theorem complete_task_eq (now : String) (m : ExecutionMemory) (fr : String) (s : Bool)
    (t : TaskExecution) (hact : m.current_execution = some t) :
    complete_task now m fr s =
      _save_persistent_memory
        { m with
            current_execution := some
              ({ t with final_result := some fr,
                        status := if s then "completed" else "failed" }),
            persistent_memory :=
              { m.persistent_memory with task_history :=
                  m.persistent_memory.task_history ++
                    [{ task_id := t.task_id, query := t.original_query, success := s,
                       steps_count := t.steps.length, completed_at := now }] } } := by
  simp [complete_task, hact]

/-- Counterexample for C2: a deduplicating recordStepOutcome (the second
recording of the same shell command) increments the in-memory count but
does not flush, leaving the on-disk tables different from the in-memory
ones. -/
theorem dedupe_increment_not_flushed_cex :
    _load_persistent_memory
        (add_step_result "ts" (add_step_result "ts" activeMemory stepAlpha) stepBeta).file ≠
      (add_step_result "ts" (add_step_result "ts" activeMemory stepAlpha) stepBeta).persistent_memory := by
  decide

/-- Claim C2 as amended: a recordStepOutcome that appends a new pattern
record flushes (disk equals memory afterwards), in either flavor, and so
does completing a task; but a recordStepOutcome whose pattern already
exists, in either flavor, only increments the in-memory count and leaves
the file untouched, so the disk can lag the memory until the next
flush. -/
theorem flush_behavior :
    (∀ ts m t step, m.current_execution = some t → step.success = true →
      (m.persistent_memory.successful_patterns.filter fun p =>
        p.action_type == step.action_type && p.command == step.command) = [] →
      _load_persistent_memory (add_step_result ts m step).file =
        (add_step_result ts m step).persistent_memory) ∧
    (∀ ts m t step p0, m.current_execution = some t → step.success = true →
      (m.persistent_memory.successful_patterns.filter fun p =>
        p.action_type == step.action_type && p.command == step.command) = [p0] →
      (add_step_result ts m step).file = m.file) ∧
    (∀ ts m t step, m.current_execution = some t → step.success = false →
      (m.persistent_memory.failed_patterns.filter fun p =>
        p.action_type == step.action_type && p.command == step.command) = [] →
      _load_persistent_memory (add_step_result ts m step).file =
        (add_step_result ts m step).persistent_memory) ∧
    (∀ ts m t step p0, m.current_execution = some t → step.success = false →
      (m.persistent_memory.failed_patterns.filter fun p =>
        p.action_type == step.action_type && p.command == step.command) = [p0] →
      (add_step_result ts m step).file = m.file) ∧
    (∀ now m t fr s, m.current_execution = some t →
      _load_persistent_memory (complete_task now m fr s).file =
        (complete_task now m fr s).persistent_memory) := by
  refine ⟨?_, ?_, ?_, ?_, ?_⟩
  · intro ts m t step hact hsucc hf
    rw [add_step_result_succ ts m step t hact hsucc]
    rw [learn_succ_new _ _ (by simpa using hf)]
    exact save_load_self _
  · intro ts m t step p0 hact hsucc hf
    rw [add_step_result_succ ts m step t hact hsucc]
    obtain ⟨ps', hb, _⟩ := bumpSuccess_of_filter_single step.action_type step.command p0 _ hf
    simp [learn_successful_pattern, hb]
  · intro ts m t step hact hfail hf
    rw [add_step_result_fail ts m step t hact hfail]
    rw [learn_fail_new _ _ (by simpa using hf)]
    exact save_load_self _
  · intro ts m t step p0 hact hfail hf
    rw [add_step_result_fail ts m step t hact hfail]
    obtain ⟨ps', hb, _⟩ := bumpFailed_of_filter_single step.action_type step.command p0 _ hf
    simp [learn_failed_pattern, hb]
  · intro now m t fr s hact
    rw [complete_task_eq now m fr s t hact]
    exact save_load_self _

/-- Witness for C2: the first recording of a fresh pattern flushes at a
concrete store state, in both the successful and the failed flavor. -/
theorem flush_behavior_witness :
    (_load_persistent_memory (add_step_result "ts" activeMemory stepAlpha).file =
      (add_step_result "ts" activeMemory stepAlpha).persistent_memory) ∧
    (_load_persistent_memory
        (add_step_result "ts" activeMemory { stepAlpha with success := false }).file =
      (add_step_result "ts" activeMemory
        { stepAlpha with success := false }).persistent_memory) :=
  ⟨flush_behavior.1 "ts" activeMemory tDemo stepAlpha (by decide) (by decide) (by decide),
   flush_behavior.2.2.1 "ts" activeMemory tDemo { stepAlpha with success := false }
     (by decide) (by decide) (by decide)⟩

/-- Learning a successful pattern never touches the in-flight task, the
history, or the failed table. -/
theorem learn_succ_preserves (m : ExecutionMemory) (st : ExecutionStep) :
    (learn_successful_pattern m st).current_execution = m.current_execution ∧
    (learn_successful_pattern m st).persistent_memory.task_history =
      m.persistent_memory.task_history ∧
    (learn_successful_pattern m st).persistent_memory.failed_patterns =
      m.persistent_memory.failed_patterns := by
  rcases hb : bumpSuccess m.persistent_memory.successful_patterns st.action_type st.command with
    _ | ps'
  · refine ⟨?_, ?_, ?_⟩ <;> simp [learn_successful_pattern, hb, _save_persistent_memory]
  · refine ⟨?_, ?_, ?_⟩ <;> simp [learn_successful_pattern, hb]

/-- Learning a failed pattern never touches the in-flight task, the
history, or the successful table. -/
theorem learn_fail_preserves (m : ExecutionMemory) (st : ExecutionStep) :
    (learn_failed_pattern m st).current_execution = m.current_execution ∧
    (learn_failed_pattern m st).persistent_memory.task_history =
      m.persistent_memory.task_history ∧
    (learn_failed_pattern m st).persistent_memory.successful_patterns =
      m.persistent_memory.successful_patterns := by
  rcases hb : bumpFailed m.persistent_memory.failed_patterns st.action_type st.command with
    _ | ps'
  · refine ⟨?_, ?_, ?_⟩ <;> simp [learn_failed_pattern, hb, _save_persistent_memory]
  · refine ⟨?_, ?_, ?_⟩ <;> simp [learn_failed_pattern, hb]

/-- Recording a step changes neither the task history nor the status of
the in-flight task. -/
theorem add_step_result_history_status (ts : String) (m : ExecutionMemory)
    (st : ExecutionStep) :
    historyOf (add_step_result ts m st) = historyOf m ∧
    statusOf (add_step_result ts m st) = statusOf m := by
  rcases hact : m.current_execution with _ | t
  · simp [add_step_result, hact]
  · rcases hs : st.success
    · rw [add_step_result_fail ts m st t hact hs]
      constructor
      · simp [historyOf, (learn_fail_preserves _ _).2.1]
      · simp [statusOf, hact, (learn_fail_preserves _ _).1]
    · rw [add_step_result_succ ts m st t hact hs]
      constructor
      · simp [historyOf, (learn_succ_preserves _ _).2.1]
      · simp [statusOf, hact, (learn_succ_preserves _ _).1]

/-- First recording of a fresh successful pattern: the filtered table
afterwards holds exactly the new record with count 1, and a task is
still active. -/
theorem record_succ_first (ts : String) (m : ExecutionMemory) (step : ExecutionStep)
    (t : TaskExecution) (hact : m.current_execution = some t) (hs : step.success = true)
    (hf : (m.persistent_memory.successful_patterns.filter fun p =>
      p.action_type == step.action_type && p.command == step.command) = []) :
    ((add_step_result ts m step).persistent_memory.successful_patterns.filter fun p =>
      p.action_type == step.action_type && p.command == step.command) =
      [{ action_type := step.action_type,
         description_keywords := (tokenize (lowerStr step.description)).take 5,
         command := step.command, success_count := 1 }] ∧
    (∃ t', (add_step_result ts m step).current_execution = some t') := by
  rw [add_step_result_succ ts m step t hact hs]
  rw [learn_succ_new _ _ (by simpa using hf)]
  constructor
  · simp [_save_persistent_memory, List.filter_append, hf]
  · exact ⟨_, rfl⟩

/-- Deduplicating recording of a successful pattern: the unique matching
record gets its count incremented, and a task is still active. -/
theorem record_succ_bump (ts : String) (m : ExecutionMemory) (step : ExecutionStep)
    (t : TaskExecution) (p0 : SuccessPattern) (hact : m.current_execution = some t)
    (hs : step.success = true)
    (hf : (m.persistent_memory.successful_patterns.filter fun p =>
      p.action_type == step.action_type && p.command == step.command) = [p0]) :
    ((add_step_result ts m step).persistent_memory.successful_patterns.filter fun p =>
      p.action_type == step.action_type && p.command == step.command) =
      [{ p0 with success_count := p0.success_count + 1 }] ∧
    (∃ t', (add_step_result ts m step).current_execution = some t') := by
  rw [add_step_result_succ ts m step t hact hs]
  obtain ⟨ps', hb, hfil⟩ :=
    bumpSuccess_of_filter_single step.action_type step.command p0
      m.persistent_memory.successful_patterns hf
  refine ⟨?_, ?_⟩
  · simpa [learn_successful_pattern, hb] using hfil
  · exact ⟨{ t with steps := t.steps ++ [{ step with timestamp := ts }] },
      by simp [learn_successful_pattern, hb]⟩

/-- First recording of a fresh failed pattern. -/
theorem record_fail_first (ts : String) (m : ExecutionMemory) (step : ExecutionStep)
    (t : TaskExecution) (hact : m.current_execution = some t) (hs : step.success = false)
    (hf : (m.persistent_memory.failed_patterns.filter fun p =>
      p.action_type == step.action_type && p.command == step.command) = []) :
    ((add_step_result ts m step).persistent_memory.failed_patterns.filter fun p =>
      p.action_type == step.action_type && p.command == step.command) =
      [{ action_type := step.action_type, command := step.command,
         error_context := (step.result.getD "").take 200, failure_count := 1 }] ∧
    (∃ t', (add_step_result ts m step).current_execution = some t') := by
  rw [add_step_result_fail ts m step t hact hs]
  rw [learn_fail_new _ _ (by simpa using hf)]
  constructor
  · simp [_save_persistent_memory, List.filter_append, hf]
  · exact ⟨_, rfl⟩

/-- Deduplicating recording of a failed pattern. -/
theorem record_fail_bump (ts : String) (m : ExecutionMemory) (step : ExecutionStep)
    (t : TaskExecution) (p0 : FailedPattern) (hact : m.current_execution = some t)
    (hs : step.success = false)
    (hf : (m.persistent_memory.failed_patterns.filter fun p =>
      p.action_type == step.action_type && p.command == step.command) = [p0]) :
    ((add_step_result ts m step).persistent_memory.failed_patterns.filter fun p =>
      p.action_type == step.action_type && p.command == step.command) =
      [{ p0 with failure_count := p0.failure_count + 1 }] ∧
    (∃ t', (add_step_result ts m step).current_execution = some t') := by
  rw [add_step_result_fail ts m step t hact hs]
  obtain ⟨ps', hb, hfil⟩ :=
    bumpFailed_of_filter_single step.action_type step.command p0
      m.persistent_memory.failed_patterns hf
  refine ⟨?_, ?_⟩
  · simpa [learn_failed_pattern, hb] using hfil
  · exact ⟨{ t with steps := t.steps ++ [{ step with timestamp := ts }] },
      by simp [learn_failed_pattern, hb]⟩

/-- Folding matching successful steps over a table whose unique matching
record has count k yields count k plus the number of steps. -/
theorem record_all_bump_succ (ts : String) (a : String) (c : Option String) :
    ∀ (steps : List ExecutionStep) (m : ExecutionMemory) (kws : List String) (k : Nat),
      (∃ t, m.current_execution = some t) →
      (∀ s ∈ steps, s.action_type = a ∧ s.command = c ∧ s.success = true) →
      ((m.persistent_memory.successful_patterns.filter fun p =>
        p.action_type == a && p.command == c) =
        [{ action_type := a, description_keywords := kws, command := c,
           success_count := k }]) →
      ((record_all ts m steps).persistent_memory.successful_patterns.filter fun p =>
        p.action_type == a && p.command == c) =
        [{ action_type := a, description_keywords := kws, command := c,
           success_count := k + steps.length }] := by
  intro steps
  induction steps with
  | nil => intro m kws k _ _ hf; simpa [record_all] using hf
  | cons s rest ih =>
    intro m kws k hact hall hf
    obtain ⟨t, ht⟩ := hact
    obtain ⟨ha, hc, hs⟩ := hall s (List.mem_cons_self s rest)
    have hfil : (m.persistent_memory.successful_patterns.filter fun p =>
        p.action_type == s.action_type && p.command == s.command) =
        [{ action_type := a, description_keywords := kws, command := c,
           success_count := k }] := by
      rw [ha, hc]; exact hf
    have hstep := record_succ_bump ts m s t
      { action_type := a, description_keywords := kws, command := c, success_count := k }
      ht hs hfil
    have hconv : ((add_step_result ts m s).persistent_memory.successful_patterns.filter
        fun p => p.action_type == a && p.command == c) =
        [{ action_type := a, description_keywords := kws, command := c,
           success_count := k + 1 }] := by
      have h1 := hstep.1
      rw [ha, hc] at h1
      exact h1
    have hrec := ih (add_step_result ts m s) kws (k + 1) hstep.2
      (fun s' hs' => hall s' (List.mem_cons_of_mem _ hs')) hconv
    have hlen : k + 1 + rest.length = k + (s :: rest).length := by
      simp [List.length_cons]; omega
    rw [hlen] at hrec
    simpa [record_all, List.foldl_cons] using hrec

/-- Folding matching failed steps over a table whose unique matching
record has count k yields count k plus the number of steps. -/
theorem record_all_bump_fail (ts : String) (a : String) (c : Option String) :
    ∀ (steps : List ExecutionStep) (m : ExecutionMemory) (ec : String) (k : Nat),
      (∃ t, m.current_execution = some t) →
      (∀ s ∈ steps, s.action_type = a ∧ s.command = c ∧ s.success = false) →
      ((m.persistent_memory.failed_patterns.filter fun p =>
        p.action_type == a && p.command == c) =
        [{ action_type := a, command := c, error_context := ec, failure_count := k }]) →
      ((record_all ts m steps).persistent_memory.failed_patterns.filter fun p =>
        p.action_type == a && p.command == c) =
        [{ action_type := a, command := c, error_context := ec,
           failure_count := k + steps.length }] := by
  intro steps
  induction steps with
  | nil => intro m ec k _ _ hf; simpa [record_all] using hf
  | cons s rest ih =>
    intro m ec k hact hall hf
    obtain ⟨t, ht⟩ := hact
    obtain ⟨ha, hc, hs⟩ := hall s (List.mem_cons_self s rest)
    have hfil : (m.persistent_memory.failed_patterns.filter fun p =>
        p.action_type == s.action_type && p.command == s.command) =
        [{ action_type := a, command := c, error_context := ec, failure_count := k }] := by
      rw [ha, hc]; exact hf
    have hstep := record_fail_bump ts m s t
      { action_type := a, command := c, error_context := ec, failure_count := k }
      ht hs hfil
    have hconv : ((add_step_result ts m s).persistent_memory.failed_patterns.filter
        fun p => p.action_type == a && p.command == c) =
        [{ action_type := a, command := c, error_context := ec,
           failure_count := k + 1 }] := by
      have h1 := hstep.1
      rw [ha, hc] at h1
      exact h1
    have hrec := ih (add_step_result ts m s) ec (k + 1) hstep.2
      (fun s' hs' => hall s' (List.mem_cons_of_mem _ hs')) hconv
    have hlen : k + 1 + rest.length = k + (s :: rest).length := by
      simp [List.length_cons]; omega
    rw [hlen] at hrec
    simpa [record_all, List.foldl_cons] using hrec

/-- Claim C3: starting from a table with no record for the pair, a
nonempty sequence of recordStepOutcome calls all sharing the action
kind, command and success flavor leaves exactly one matching record in
the corresponding table, with occurrence count equal to the number of
calls; stated for both the successful and the failed flavor. -/
theorem pattern_dedupe_counts :
    (∀ (ts a : String) (c : Option String) (m : ExecutionMemory) (t : TaskExecution)
        (steps : List ExecutionStep), m.current_execution = some t →
      (∀ s ∈ steps, s.action_type = a ∧ s.command = c ∧ s.success = true) →
      ((m.persistent_memory.successful_patterns.filter fun p =>
        p.action_type == a && p.command == c) = []) →
      steps ≠ [] →
      ∃ kws, ((record_all ts m steps).persistent_memory.successful_patterns.filter fun p =>
        p.action_type == a && p.command == c) =
        [{ action_type := a, description_keywords := kws, command := c,
           success_count := steps.length }]) ∧
    (∀ (ts a : String) (c : Option String) (m : ExecutionMemory) (t : TaskExecution)
        (steps : List ExecutionStep), m.current_execution = some t →
      (∀ s ∈ steps, s.action_type = a ∧ s.command = c ∧ s.success = false) →
      ((m.persistent_memory.failed_patterns.filter fun p =>
        p.action_type == a && p.command == c) = []) →
      steps ≠ [] →
      ∃ ec, ((record_all ts m steps).persistent_memory.failed_patterns.filter fun p =>
        p.action_type == a && p.command == c) =
        [{ action_type := a, command := c, error_context := ec,
           failure_count := steps.length }]) := by
  constructor
  · intro ts a c m t steps hact hall hf hne
    rcases steps with _ | ⟨s, rest⟩
    · exact absurd rfl hne
    obtain ⟨ha, hc, hs⟩ := hall s (List.mem_cons_self s rest)
    have hfil : (m.persistent_memory.successful_patterns.filter fun p =>
        p.action_type == s.action_type && p.command == s.command) = [] := by
      rw [ha, hc]; exact hf
    have hfirst := record_succ_first ts m s t hact hs hfil
    have h1 := hfirst.1
    rw [ha, hc] at h1
    refine ⟨(tokenize (lowerStr s.description)).take 5, ?_⟩
    have hrec := record_all_bump_succ ts a c rest (add_step_result ts m s)
      ((tokenize (lowerStr s.description)).take 5) 1 hfirst.2
      (fun s' hs' => hall s' (List.mem_cons_of_mem _ hs')) h1
    have hlen : 1 + rest.length = (s :: rest).length := by
      simp [List.length_cons]; omega
    rw [hlen] at hrec
    simpa [record_all, List.foldl_cons] using hrec
  · intro ts a c m t steps hact hall hf hne
    rcases steps with _ | ⟨s, rest⟩
    · exact absurd rfl hne
    obtain ⟨ha, hc, hs⟩ := hall s (List.mem_cons_self s rest)
    have hfil : (m.persistent_memory.failed_patterns.filter fun p =>
        p.action_type == s.action_type && p.command == s.command) = [] := by
      rw [ha, hc]; exact hf
    have hfirst := record_fail_first ts m s t hact hs hfil
    have h1 := hfirst.1
    rw [ha, hc] at h1
    refine ⟨(s.result.getD "").take 200, ?_⟩
    have hrec := record_all_bump_fail ts a c rest (add_step_result ts m s)
      ((s.result.getD "").take 200) 1 hfirst.2
      (fun s' hs' => hall s' (List.mem_cons_of_mem _ hs')) h1
    have hlen : 1 + rest.length = (s :: rest).length := by
      simp [List.length_cons]; omega
    rw [hlen] at hrec
    simpa [record_all, List.foldl_cons] using hrec

/-- Witness for C3: two successful recordings of the same shell command
on a fresh active store leave one record with count 2. -/
theorem pattern_dedupe_counts_witness :
    ∃ kws, ((record_all "ts" activeMemory [stepAlpha, stepBeta]).persistent_memory.successful_patterns.filter
      fun p => p.action_type == "shell" && p.command == some "ls") =
      [{ action_type := "shell", description_keywords := kws, command := some "ls",
         success_count := [stepAlpha, stepBeta].length }] :=
  pattern_dedupe_counts.1 "ts" "shell" (some "ls") activeMemory tDemo [stepAlpha, stepBeta]
    (by decide) (by decide) (by decide) (by decide)

/-- Counterexample for C10: after a deduplicating second recording, the
record of the recorded step stepBeta keeps the keyword set of the first
creating step, which differs from the first five tokens of the lowercased
description of stepBeta. -/
theorem stale_keywords_on_dedupe_cex :
    (add_step_result "ts" (add_step_result "ts" activeMemory stepAlpha) stepBeta).persistent_memory.successful_patterns =
      [{ action_type := "shell", description_keywords := ["alpha", "list", "files"],
         command := some "ls", success_count := 2 }] ∧
    (tokenize (lowerStr stepBeta.description)).take 5 = ["beta", "remove", "stuff"] ∧
    (["alpha", "list", "files"] : List String) ≠ ["beta", "remove", "stuff"] := by
  refine ⟨by decide, by decide, by decide⟩

/-- Claim C10 as amended: the keyword set stored in a successful Pattern
Record is the first five whitespace tokens of the lowercased description
of the step whose recording created the record (a deduplicating repeat
only increments the count and leaves the keywords unchanged); and
queryRelevantMemory returns a successful pattern command only when the
action kinds agree and some token of the lowercased query description
occurs in that stored keyword set. -/
theorem keywords_and_query_necessity :
    (∀ ts m t step, m.current_execution = some t → step.success = true →
      ((m.persistent_memory.successful_patterns.filter fun p =>
        p.action_type == step.action_type && p.command == step.command) = []) →
      (add_step_result ts m step).persistent_memory.successful_patterns =
        m.persistent_memory.successful_patterns ++
          [{ action_type := step.action_type,
             description_keywords := (tokenize (lowerStr step.description)).take 5,
             command := step.command, success_count := 1 }]) ∧
    (∀ ts m t step p0, m.current_execution = some t → step.success = true →
      ((m.persistent_memory.successful_patterns.filter fun p =>
        p.action_type == step.action_type && p.command == step.command) = [p0]) →
      ((add_step_result ts m step).persistent_memory.successful_patterns.filter fun p =>
        p.action_type == step.action_type && p.command == step.command) =
        [{ p0 with success_count := p0.success_count + 1 }]) ∧
    (∀ (m : ExecutionMemory) (a desc : String) (cmd : Option String),
      cmd ∈ (get_relevant_memory m a desc).successful_commands →
      ∃ p, p ∈ m.persistent_memory.successful_patterns ∧ p.action_type = a ∧
        p.command = cmd ∧
        ∃ kw, kw ∈ tokenize (lowerStr desc) ∧ kw ∈ p.description_keywords) := by
  refine ⟨?_, ?_, ?_⟩
  · intro ts m t step hact hs hf
    rw [add_step_result_succ ts m step t hact hs]
    rw [learn_succ_new _ _ (by simpa using hf)]
    simp [_save_persistent_memory]
  · intro ts m t step p0 hact hs hf
    exact (record_succ_bump ts m step t p0 hact hs hf).1
  · intro m a desc cmd hmem
    simp only [get_relevant_memory, List.mem_map] at hmem
    obtain ⟨p, hp, hpc⟩ := hmem
    rw [List.mem_filter] at hp
    obtain ⟨hpmem, hpred⟩ := hp
    rw [Bool.and_eq_true] at hpred
    obtain ⟨hpa, hpkw⟩ := hpred
    rw [List.any_eq_true] at hpkw
    obtain ⟨kw, hkwmem, hkwin⟩ := hpkw
    refine ⟨p, hpmem, by simpa using hpa, hpc, kw, hkwmem, ?_⟩
    simpa [List.contains] using hkwin

/-- Witness for C10: the creating recording of a fresh pattern stores
the first five tokens of the lowercased description at a concrete
store state. -/
theorem keywords_and_query_necessity_witness :
    (add_step_result "ts" activeMemory stepAlpha).persistent_memory.successful_patterns =
      activeMemory.persistent_memory.successful_patterns ++
        [{ action_type := stepAlpha.action_type,
           description_keywords := (tokenize (lowerStr stepAlpha.description)).take 5,
           command := stepAlpha.command, success_count := 1 }] :=
  keywords_and_query_necessity.1 "ts" activeMemory tDemo stepAlpha (by decide) (by decide)
    (by decide)

/-- Recording a step preserves the task history. -/
theorem add_step_result_history (ts : String) (m : ExecutionMemory) (st : ExecutionStep) :
    historyOf (add_step_result ts m st) = historyOf m :=
  (add_step_result_history_status ts m st).1

/-- Recording a step preserves the status of the in-flight task. -/
theorem add_step_result_status (ts : String) (m : ExecutionMemory) (st : ExecutionStep) :
    statusOf (add_step_result ts m st) = statusOf m :=
  (add_step_result_history_status ts m st).2

/-- Recording a step with an active task appends exactly that step
(with its timestamp set) to the task. -/
theorem add_step_result_current (ts : String) (m : ExecutionMemory) (st : ExecutionStep)
    (t : TaskExecution) (hact : m.current_execution = some t) :
    (add_step_result ts m st).current_execution =
      some { t with steps := t.steps ++ [{ st with timestamp := ts }] } := by
  rcases hs : st.success
  · rw [add_step_result_fail ts m st t hact hs]
    rw [(learn_fail_preserves _ _).1]
    simp [hs]
  · rw [add_step_result_succ ts m st t hact hs]
    rw [(learn_succ_preserves _ _).1]
    simp [hs]

/-- Any store projection that recording a step preserves is preserved by
the whole per-step retry loop. -/
theorem step_loop_invariant {α : Type} (f : ExecutionMemory → α)
    (hf : ∀ ts m st, f (add_step_result ts m st) = f m)
    (o : EngineOracle) (ts : String) (i : Nat) :
    ∀ fuel m st rc, f (step_loop o ts i fuel m st rc).1 = f m := by
  intro fuel
  induction fuel with
  | zero => intro m st rc; rfl
  | succ fuel ih =>
    intro m st rc
    by_cases hrc : rc < max_retries
    · rcases hv : o.verify i rc with v | msg
      · rcases hs : v.success
        · rcases hrp : v.should_replan
          · by_cases hrt : v.should_retry = true ∧ rc < max_retries - 1
            · simp [step_loop, hrc, hv, hs, hrp, hrt, ih]
            · simp [step_loop, hrc, hv, hs, hrp, hrt, hf]
          · simp [step_loop, hrc, hv, hs, hrp, hf]
        · simp [step_loop, hrc, hv, hs, hf]
      · by_cases hb : rc + 1 ≥ max_retries
        · simp [step_loop, hrc, hv, hb, hf]
        · simp [step_loop, hrc, hv, hb, ih]
    · simp [step_loop, hrc]

/-- Any store projection that recording a step preserves is preserved by
the iteration over all plan steps. -/
theorem run_steps_invariant {α : Type} (f : ExecutionMemory → α)
    (hf : ∀ ts m st, f (add_step_result ts m st) = f m)
    (o : EngineOracle) (ts : String) :
    ∀ steps m i, f (run_steps o ts m steps i).1 = f m := by
  intro steps
  induction steps with
  | nil => intro m i; rfl
  | cons sd rest ih =>
    intro m i
    rcases hex : (step_loop o ts i max_retries m
      { step_number := i, description := sd.description, action_type := sd.action,
        command := sd.command } 0).2.1 with _ | _
    · simp only [run_steps, hex]
      rw [ih, step_loop_invariant f hf]
    · simp only [run_steps, hex]
      exact step_loop_invariant f hf o ts i max_retries m _ 0

/-- When verification never signals a replan, the per-step loop executes
the step at most (max_retries - rc) more times, always exits with a
break (never the replan return), and records exactly one executed step
on the active task. -/
theorem step_loop_bound_general (o : EngineOracle) (ts : String) (i : Nat)
    (hnr : ∀ rc v, o.verify i rc = ExtRes.ok v → v.should_replan = false) :
    ∀ fuel m st rc t, m.current_execution = some t → rc < max_retries →
      max_retries ≤ fuel + rc →
      (step_loop o ts i fuel m st rc).2.2 ≤ max_retries - rc ∧
      (step_loop o ts i fuel m st rc).2.1 = StepExit.brk ∧
      ∃ st', (step_loop o ts i fuel m st rc).1.current_execution =
        some { t with steps := t.steps ++ [st'] } := by
  intro fuel
  induction fuel with
  | zero =>
    intro m st rc t hact hrc hle
    exfalso
    omega
  | succ fuel ih =>
    intro m st rc t hact hrc hle
    rcases hv : o.verify i rc with v | msg
    · have hrp : v.should_replan = false := hnr rc v hv
      rcases hs : v.success
      · by_cases hrt : v.should_retry = true ∧ rc < max_retries - 1
        · have h := ih m { st with result := some (stepActionResult o i rc st), success := false, retry_count := rc } (rc + 1) t hact (by omega) (by omega)
          refine ⟨?_, ?_, ?_⟩
          · have h1 := h.1
            simp [step_loop, hrc, hv, hs, hrp, hrt]
            omega
          · simp [step_loop, hrc, hv, hs, hrp, hrt, h.2.1]
          · obtain ⟨st', hst'⟩ := h.2.2
            refine ⟨st', ?_⟩
            simp [step_loop, hrc, hv, hs, hrp, hrt, hst']
        · refine ⟨?_, ?_, ?_⟩
          · simp [step_loop, hrc, hv, hs, hrp, hrt]
            omega
          · simp [step_loop, hrc, hv, hs, hrp, hrt]
          · refine ⟨{ st with result := some (stepActionResult o i rc st), success := false, timestamp := ts, retry_count := rc }, ?_⟩
            simp [step_loop, hrc, hv, hs, hrp, hrt]
            rw [add_step_result_current ts m _ t hact]
      · refine ⟨?_, ?_, ?_⟩
        · simp [step_loop, hrc, hv, hs]
          omega
        · simp [step_loop, hrc, hv, hs]
        · refine ⟨{ st with result := some (stepActionResult o i rc st), success := true, timestamp := ts, retry_count := rc }, ?_⟩
          simp [step_loop, hrc, hv, hs]
          rw [add_step_result_current ts m _ t hact]
    · by_cases hb : rc + 1 ≥ max_retries
      · refine ⟨?_, ?_, ?_⟩
        · simp [step_loop, hrc, hv, hb]
          omega
        · simp [step_loop, hrc, hv, hb]
        · refine ⟨{ st with result := some ("Error: " ++ msg), success := false, timestamp := ts }, ?_⟩
          simp [step_loop, hrc, hv, hb]
          rw [add_step_result_current ts m _ t hact]
      · have h := ih m { st with result := some ("Error: " ++ msg), success := false } (rc + 1) t hact (by omega) (by omega)
        refine ⟨?_, ?_, ?_⟩
        · have h1 := h.1
          simp [step_loop, hrc, hv, hb]
          omega
        · simp [step_loop, hrc, hv, hb, h.2.1]
        · obtain ⟨st', hst'⟩ := h.2.2
          refine ⟨st', ?_⟩
          simp [step_loop, hrc, hv, hb, hst']

/-- Claim C4: with an active task and a verification oracle that always
asks for a retry and never for a replan, the per-step loop executes the
step at most 3 times (counting the first attempt), terminates with a
break (so the engine advances), and records exactly one executed step on
the task. -/
theorem engine_retry_bound (o : EngineOracle) (ts : String) (i : Nat)
    (m : ExecutionMemory) (st : ExecutionStep) (t : TaskExecution)
    (hact : m.current_execution = some t)
    (hv : ∀ rc v, o.verify i rc = ExtRes.ok v →
      v.should_retry = true ∧ v.should_replan = false) :
    (step_loop o ts i max_retries m st 0).2.2 ≤ 3 ∧
    (step_loop o ts i max_retries m st 0).2.1 = StepExit.brk ∧
    ∃ st', (step_loop o ts i max_retries m st 0).1.current_execution =
      some { t with steps := t.steps ++ [st'] } := by
  have h := step_loop_bound_general o ts i (fun rc v h' => (hv rc v h').2)
    max_retries m st 0 t hact (by simp [max_retries]) (by simp [max_retries])
  simpa [max_retries] using h

/-- Witness for C4: the always-retry oracle on a concrete active store
executes the step within the budget and records it. -/
theorem engine_retry_bound_witness :
    (step_loop oRetry "ts" 1 max_retries activeMemory stepAlpha 0).2.2 ≤ 3 ∧
    (step_loop oRetry "ts" 1 max_retries activeMemory stepAlpha 0).2.1 = StepExit.brk ∧
    ∃ st', (step_loop oRetry "ts" 1 max_retries activeMemory stepAlpha 0).1.current_execution =
      some { tDemo with steps := tDemo.steps ++ [st'] } :=
  engine_retry_bound oRetry "ts" 1 activeMemory stepAlpha tDemo (by decide)
    (fun rc v h => by cases h; exact ⟨rfl, rfl⟩)

/-- Counterexample for C1: with a verification that signals a replan,
the engine returns without completing the task — the history gains no
entry and the task is left active in status executing, not failed. -/
theorem replan_leaves_task_open_cex :
    (claude_code_execution oReplan "t" "q" freshMemory).2 = EngineExit.replanReturn ∧
    historyOf (claude_code_execution oReplan "t" "q" freshMemory).1 = [] ∧
    statusOf (claude_code_execution oReplan "t" "q" freshMemory).1 = some "executing" := by
  refine ⟨by decide, by decide, by decide⟩

/-- Claim C1 as amended: on the normal-completion exit the engine calls
complete_task, leaving the task in status completed and appending one
history entry; on either reasoning fault it calls complete_task with
failure, leaving status failed and one new history entry; but on the
replan exit it returns without calling complete_task, so the history is
unchanged and the task stays active in status executing. -/
theorem engine_exit_path_closure (o : EngineOracle) (ts query : String)
    (m0 : ExecutionMemory) :
    ((claude_code_execution o ts query m0).2 = EngineExit.completedNormally →
      (historyOf (claude_code_execution o ts query m0).1).length =
        (historyOf m0).length + 1 ∧
      statusOf (claude_code_execution o ts query m0).1 = some "completed") ∧
    (∀ msg, (claude_code_execution o ts query m0).2 = EngineExit.fault msg →
      (historyOf (claude_code_execution o ts query m0).1).length =
        (historyOf m0).length + 1 ∧
      statusOf (claude_code_execution o ts query m0).1 = some "failed") ∧
    ((claude_code_execution o ts query m0).2 = EngineExit.replanReturn →
      historyOf (claude_code_execution o ts query m0).1 = historyOf m0 ∧
      statusOf (claude_code_execution o ts query m0).1 = some "executing") := by
  rcases hres : o.research with rr | msgR
  · rcases hpl : o.plan with pl | msgP
    · have hstat : statusOf (run_steps o ts
          (set_plan (add_research (start_task ts ts query m0).1 rr.summary) pl.steps)
          pl.steps 1).1 = some "executing" := by
        rw [run_steps_invariant statusOf add_step_result_status o ts pl.steps _ 1]
        exact rfl
      have hhist : historyOf (run_steps o ts
          (set_plan (add_research (start_task ts ts query m0).1 rr.summary) pl.steps)
          pl.steps 1).1 = historyOf m0 := by
        rw [run_steps_invariant historyOf add_step_result_history o ts pl.steps _ 1]
        exact rfl
      rcases hex : (run_steps o ts
          (set_plan (add_research (start_task ts ts query m0).1 rr.summary) pl.steps)
          pl.steps 1).2 with _ | _
      · simp only [statusOf] at hstat
        obtain ⟨t'', ht'', -⟩ := Option.map_eq_some'.mp hstat
        simp only [historyOf] at hhist
        refine ⟨?_, ?_, ?_⟩
        · intro _
          constructor
          · simp only [claude_code_execution, hres, hpl, hex]
            rw [complete_task_eq _ _ _ _ t'' ht'']
            simp [historyOf, _save_persistent_memory, List.length_append, hhist]
          · simp only [claude_code_execution, hres, hpl, hex]
            rw [complete_task_eq _ _ _ _ t'' ht'']
            simp [statusOf, _save_persistent_memory]
        · intro msg h
          simp [claude_code_execution, hres, hpl, hex] at h
        · intro h
          simp [claude_code_execution, hres, hpl, hex] at h
      · refine ⟨?_, ?_, ?_⟩
        · intro h
          simp [claude_code_execution, hres, hpl, hex] at h
        · intro msg h
          simp [claude_code_execution, hres, hpl, hex] at h
        · intro _
          constructor
          · simp only [claude_code_execution, hres, hpl, hex]
            exact hhist
          · simp only [claude_code_execution, hres, hpl, hex]
            exact hstat
    · refine ⟨?_, ?_, ?_⟩
      · intro h
        simp [claude_code_execution, hres, hpl] at h
      · intro msg h
        constructor
        · simp [claude_code_execution, hres, hpl, start_task, add_research, complete_task,
            _save_persistent_memory, historyOf, List.length_append]
        · simp [claude_code_execution, hres, hpl, start_task, add_research, complete_task,
            _save_persistent_memory, statusOf]
      · intro h
        simp [claude_code_execution, hres, hpl] at h
  · refine ⟨?_, ?_, ?_⟩
    · intro h
      simp [claude_code_execution, hres] at h
    · intro msg h
      constructor
      · simp [claude_code_execution, hres, start_task, complete_task,
          _save_persistent_memory, historyOf, List.length_append]
      · simp [claude_code_execution, hres, start_task, complete_task,
          _save_persistent_memory, statusOf]
    · intro h
      simp [claude_code_execution, hres] at h

/-- Witness for C1: the replan-exit branch of the theorem at a concrete
oracle whose single verification signals a replan. -/
theorem engine_exit_path_closure_witness :
    historyOf (claude_code_execution oReplan "tt" "qq" freshMemory).1 =
      historyOf freshMemory ∧
    statusOf (claude_code_execution oReplan "tt" "qq" freshMemory).1 = some "executing" :=
  (engine_exit_path_closure oReplan "tt" "qq" freshMemory).2.2 (by decide)

/-- Counterexample for C6: in the engine loop, a clarify step does not
end the task; it is executed as an unknown action type, verification
proceeds, the following step also executes, and the task completes
normally with two recorded steps. -/
theorem engine_clarify_no_short_circuit_cex :
    (claude_code_execution oClarify "t" "q" freshMemory).2 = EngineExit.completedNormally ∧
    ((claude_code_execution oClarify "t" "q" freshMemory).1.current_execution.map fun tk =>
      tk.steps.length) = some 2 ∧
    ((claude_code_execution oClarify "t" "q" freshMemory).1.current_execution.map fun tk =>
      tk.steps.map fun s => s.result) =
      some [some "Unknown action type: clarify", some "STDOUT:\nok\nReturn code: 0"] := by
  refine ⟨by decide, by decide, by decide⟩

/-- Claim C6 as amended: in the legacy plan executor (process_request),
the first clarify step short-circuits: the loop returns the
clarification message for that step and none of the remaining steps
execute (the result is independent of every step after it); the engine
loop of claude_code_execution, by contrast, does not short-circuit on
clarify steps. -/
theorem process_request_clarify_short_circuit (searchR : String → String)
    (runner : String → ShellOutcome) (pre post : List AgentPlanStep)
    (st : AgentPlanStep) (acc : List String)
    (hpre : ∀ s ∈ pre, s.action_type ≠ "clarify")
    (hst : st.action_type = "clarify") :
    run_plan_steps searchR runner (pre ++ st :: post) acc =
      PRResult.clarification ("I need clarification for step " ++
        toString st.step_number ++ ": " ++ st.description) := by
  revert hpre
  induction pre generalizing acc with
  | nil =>
    intro _
    simp [run_plan_steps, hst]
  | cons s pre ih =>
    intro hpre
    have hs := hpre s (List.mem_cons_self s pre)
    have hpre' : ∀ s' ∈ pre, s'.action_type ≠ "clarify" :=
      fun s' h' => hpre s' (List.mem_cons_of_mem _ h')
    simp only [List.cons_append, run_plan_steps]
    by_cases h1 : (s.action_type == "search" && isTruthyOpt s.command) = true
    · rw [if_pos h1]
      exact ih _ hpre'
    · rw [if_neg h1]
      by_cases h2 : (s.action_type == "shell" && isTruthyOpt s.command) = true
      · rw [if_pos h2]
        exact ih _ hpre'
      · rw [if_neg h2]
        by_cases h3 : (s.action_type == "clarify") = true
        · exact absurd (by simpa using h3) hs
        · rw [if_neg h3]
          exact ih _ hpre'

/-- Witness for C6: a concrete three-step plan whose middle step is a
clarify step returns the clarification message for step 2. -/
theorem process_request_clarify_short_circuit_witness :
    run_plan_steps (fun _ => "sr") (fun _ => ShellOutcome.completed "ok" "" 0)
      ([{ step_number := 1, description := "list", action_type := "shell", command := some "ls" }] ++
        { step_number := 2, description := "which file", action_type := "clarify",
          command := none } ::
        [{ step_number := 3, description := "more", action_type := "shell",
           command := some "pwd" }]) [] =
      PRResult.clarification ("I need clarification for step " ++ toString (2 : Nat) ++
        ": " ++ "which file") :=
  process_request_clarify_short_circuit (fun _ => "sr")
    (fun _ => ShellOutcome.completed "ok" "" 0)
    [{ step_number := 1, description := "list", action_type := "shell", command := some "ls" }]
    [{ step_number := 3, description := "more", action_type := "shell", command := some "pwd" }]
    { step_number := 2, description := "which file", action_type := "clarify", command := none }
    [] (by decide) rfl
